import Mathlib

/-!
Verification of the host/script bridge interface of `AdblockPlus::JsEngine`
(`src/include/AdblockPlus/JsEngine.h`).  The repository ships the interface
header together with prebuilt binaries; the method bodies (except the two
inline `NewValue` convenience overloads, which appear verbatim in the header)
are not present as source, so the corresponding operations are modelled from
the specification and each such definition says so in its doc comment.
-/

namespace AdblockPlus

/-- Modelled from the spec: a script-runtime value (`JsValue`), an opaque
handle convertible to and from host primitive types (string, integer,
boolean) and also able to denote script objects and functions.  The bodies
of `JsValue` are not under `src/`; only its use in `JsEngine.h` is. -/
inductive JsValue where
  | str (s : String)
  | num (n : Int)
  | boolean (b : Bool)
  | object (id : Nat)
  | func (id : Nat)
deriving DecidableEq

/-- List of script values, mirroring `AdblockPlus::JsValueList`. -/
abbrev JsValueList := List JsValue

/-- Host-side primitive value: `std::string`, `int64_t` or `bool`, the three
canonical argument types of `JsEngine::NewValue`. -/
inductive HostValue where
  | hstr (s : String)
  | hint (n : Int)
  | hbool (b : Bool)
deriving DecidableEq

/-- Smallest value of a two's-complement 64-bit signed integer. -/
def int64Min : Int := -(2 ^ 63)

/-- Largest value of a two's-complement 64-bit signed integer. -/
def int64Max : Int := 2 ^ 63 - 1

/-- Whether a host value is representable: strings and booleans always are,
integers when they lie in the 64-bit signed range. -/
def HostValue.representable : HostValue → Bool
  | .hint n => decide (int64Min ≤ n ∧ n ≤ int64Max)
  | _ => true

/-- Modelled from the spec: `JsEngine::NewValue` (canonical overloads for
`std::string`, `int64_t` and `bool`, declared at `JsEngine.h:122-124`, bodies
not under `src/`) produces a Value wrapping the given primitive in the
engine's native representation, exactly (no narrowing, no coercion). -/
def NewValue : HostValue → JsValue
  | .hstr s => .str s
  | .hint n => .num n
  | .hbool b => .boolean b

/-- Modelled from the spec: conversion of a script value back to the host
primitive type it wraps (the `JsValue` accessor side of the bridge, not under
`src/`); objects and functions have no primitive host representation. -/
def toHost : JsValue → Option HostValue
  | .str s => some (.hstr s)
  | .num n => some (.hint n)
  | .boolean b => some (.hbool b)
  | .object _ => none
  | .func _ => none

/-- Argument given to one of the five `NewValue` overloads declared in
`JsEngine.h:122-132`: the three canonical ones (`std::string`, `int64_t`,
`bool`) and the two inline convenience ones (`const char*`, `int`). -/
inductive NewValueArg where
  | ofStdString (s : String)
  | ofInt64 (n : Int)
  | ofBool (b : Bool)
  | ofCString (s : String)
  | ofInt (n : Int)
deriving DecidableEq

/-- Conversion `std::string(const char* val)`: builds a `std::string` with
the same character content as the C string. -/
def stdStringOfCString (s : String) : String := s

/-- Conversion `static_cast<int64_t>(int val)`: exact widening of a signed
`int` to `int64_t`. -/
def int64OfInt (n : Int) : Int := n

/-- Dispatch over the `NewValue` overload set exactly as written in
`JsEngine.h`: the `const char*` overload (lines 125-128) returns
`NewValue(std::string(val))` and the `int` overload (lines 129-132) returns
`NewValue(static_cast<int64_t>(val))`. -/
def NewValueOverload : NewValueArg → JsValue
  | .ofStdString s => NewValue (.hstr s)
  | .ofInt64 n => NewValue (.hint n)
  | .ofBool b => NewValue (.hbool b)
  | .ofCString s => NewValue (.hstr (stdStringOfCString s))
  | .ofInt n => NewValue (.hint (int64OfInt n))

/-- Canonicalisation of a `NewValue` argument: the convenience overloads map
to the canonical overload the header delegates them to. -/
def canonicalArg : NewValueArg → NewValueArg
  | .ofCString s => .ofStdString (stdStringOfCString s)
  | .ofInt n => .ofInt64 (int64OfInt n)
  | a => a

/-- Whether an argument targets one of the three canonical overloads. -/
def isCanonical : NewValueArg → Bool
  | .ofStdString _ => true
  | .ofInt64 _ => true
  | .ofBool _ => true
  | .ofCString _ => false
  | .ofInt _ => false

/-- Claim C1: for every supported primitive host value (a string, a boolean,
or any 64-bit signed integer, including 0, negatives, INT64_MIN, INT64_MAX
and the empty string), converting it into a script Value with `NewValue` and
converting that Value back to the host type yields exactly the original
value; integer conversion is exact over the full 64-bit signed range. -/
theorem newValue_toHost_roundTrip (v : HostValue)
    (hrep : v.representable = true) : toHost (NewValue v) = some v := by
  cases v <;> rfl

/-- Witness for C1: the round trip at INT64_MIN, INT64_MAX, 0, -1, the empty
string and both booleans. -/
theorem newValue_toHost_roundTrip_witness :
    (HostValue.hint int64Min).representable = true ∧
    (HostValue.hint int64Max).representable = true ∧
    (HostValue.hint 0).representable = true ∧
    (HostValue.hint (-1)).representable = true ∧
    (HostValue.hstr ("")).representable = true ∧
    (HostValue.hbool true).representable = true ∧
    (HostValue.hbool false).representable = true ∧
    toHost (NewValue (HostValue.hint int64Min)) = some (HostValue.hint int64Min) ∧
    toHost (NewValue (HostValue.hint int64Max)) = some (HostValue.hint int64Max) ∧
    toHost (NewValue (HostValue.hint 0)) = some (HostValue.hint 0) ∧
    toHost (NewValue (HostValue.hint (-1))) = some (HostValue.hint (-1)) ∧
    toHost (NewValue (HostValue.hstr (""))) = some (HostValue.hstr ("")) ∧
    toHost (NewValue (HostValue.hbool true)) = some (HostValue.hbool true) ∧
    toHost (NewValue (HostValue.hbool false)) = some (HostValue.hbool false) :=
  ⟨by decide, by decide, by decide, by decide, by decide, by decide, by decide,
   newValue_toHost_roundTrip (HostValue.hint int64Min) (by decide),
   newValue_toHost_roundTrip (HostValue.hint int64Max) (by decide),
   newValue_toHost_roundTrip (HostValue.hint 0) (by decide),
   newValue_toHost_roundTrip (HostValue.hint (-1)) (by decide),
   newValue_toHost_roundTrip (HostValue.hstr ("")) (by decide),
   newValue_toHost_roundTrip (HostValue.hbool true) (by decide),
   newValue_toHost_roundTrip (HostValue.hbool false) (by decide)⟩

/-- Claim C10: the convenience `NewValue` overloads are definitionally equal
to the canonical ones — `NewValue(const char* s)` equals
`NewValue(std::string(s))` and `NewValue(int n)` equals
`NewValue(static_cast<int64_t>(n))` — so the three canonical overloads fully
determine `NewValue` on all accepted input types. -/
theorem newValue_overloads_canonical (a : NewValueArg) :
    NewValueOverload a = NewValueOverload (canonicalArg a) ∧
    isCanonical (canonicalArg a) = true := by
  cases a <;> exact ⟨rfl, rfl⟩

/-- Event registry: `JsEngine::EventMap` is `std::map<std::string,
EventCallback>` (`JsEngine.h:71`), a finite map from event names to at most
one handler each.  Handlers are identified by natural numbers; the map is an
association list whose key list stays duplicate-free. -/
abbrev EventMap := List (String × Nat)

/-- Modelled from the spec: `JsEngine::SetEventCallback` (declared at
`JsEngine.h:86`, body not under `src/`) registers the handler for a name,
replacing any prior handler for the same name (`std::map` assignment). -/
def SetEventCallback : EventMap → String → Nat → EventMap
  | [], name, cb => [(name, cb)]
  | (k, v) :: rest, name, cb =>
    if k = name then (name, cb) :: rest
    else (k, v) :: SetEventCallback rest name cb

/-- Modelled from the spec: `JsEngine::RemoveEventCallback` (declared at
`JsEngine.h:92`, body not under `src/`) removes the handler for a name if
present and is a no-op if absent (`std::map::erase`). -/
def RemoveEventCallback : EventMap → String → EventMap
  | [], _ => []
  | (k, v) :: rest, name =>
    if k = name then rest
    else (k, v) :: RemoveEventCallback rest name

/-- Lookup of the handler registered for a name (`std::map::find`). -/
def findEventCallback : EventMap → String → Option Nat
  | [], _ => none
  | (k, v) :: rest, name =>
    if k = name then some v else findEventCallback rest name

/-- Number of registry entries stored under a given name. -/
def countKey (m : EventMap) (name : String) : Nat :=
  (m.filter (fun p => p.1 == name)).length

/-- Registry well-formedness: no event name occurs twice (always true of a
`std::map`). -/
def keysNodup (m : EventMap) : Prop := (m.map Prod.fst).Nodup

instance keysNodupDecidable (m : EventMap) : Decidable (keysNodup m) :=
  inferInstanceAs (Decidable (m.map Prod.fst).Nodup)

/-- Action a host event handler may perform on the engine's registry while
it runs: register a handler, remove one, or trigger another (or the same)
event re-entrantly.  Handler bodies are given by a `HandlerEnv`. -/
inductive HAction where
  | setCb (name : String) (cb : Nat)
  | removeCb (name : String)
  | trigger (name : String) (params : JsValueList)
deriving DecidableEq

/-- Assignment of a body (list of registry actions) to each handler id. -/
abbrev HandlerEnv := Nat → List HAction

/-- Invocation log: which handler was invoked, with which parameters, in
order. -/
abbrev InvLog := List (Nat × JsValueList)

/-- Runs a handler body: performs each action in order on the registry,
using `trig` for (re-entrant) event dispatch, and collects the invocation
log of the nested dispatches. -/
def runActions (trig : EventMap → String → JsValueList → EventMap × InvLog) :
    List HAction → EventMap → EventMap × InvLog
  | [], m => (m, [])
  | HAction.setCb n cb :: rest, m => runActions trig rest (SetEventCallback m n cb)
  | HAction.removeCb n :: rest, m => runActions trig rest (RemoveEventCallback m n)
  | HAction.trigger n p :: rest, m =>
    let r1 := trig m n p
    let r2 := runActions trig rest r1.1
    (r2.1, r1.2 ++ r2.2)

/-- One dispatch step: look the event name up in the registry; if no handler
is registered the call is a no-op, otherwise the handler is invoked exactly
once, synchronously, with the given parameters, its body running with `trig`
as the dispatcher for nested `TriggerEvent` calls. -/
def triggerStep (env : HandlerEnv)
    (trig : EventMap → String → JsValueList → EventMap × InvLog)
    (m : EventMap) (name : String) (params : JsValueList) : EventMap × InvLog :=
  match findEventCallback m name with
  | none => (m, [])
  | some cb =>
    let r := runActions trig (env cb) m
    (r.1, (cb, params) :: r.2)

/-- Modelled from the spec: `JsEngine::TriggerEvent` (declared at
`JsEngine.h:99`, body not under `src/`) — synchronous dispatch of a named
event, a silent no-op when no handler is registered.  The `fuel` argument
bounds the re-entrant nesting depth of handler-initiated dispatches; at
depth 0 a nested dispatch does nothing. -/
def TriggerEvent (env : HandlerEnv) :
    Nat → EventMap → String → JsValueList → EventMap × InvLog
  | 0 => fun m _ _ => (m, [])
  | fuel + 1 => triggerStep env (TriggerEvent env fuel)

/-- Lookup misses every name that is not among the registry's keys. -/
theorem findEventCallback_eq_none (m : EventMap) (name : String)
    (h : name ∉ m.map Prod.fst) : findEventCallback m name = none := by
  induction m with
  | nil => rfl
  | cons p rest ih =>
    obtain ⟨k, v⟩ := p
    simp only [List.map_cons, List.mem_cons] at h
    push_neg at h
    simp only [findEventCallback, if_neg (fun hk : k = name => h.1 hk.symm)]
    exact ih h.2

/-- A name that is not among the keys has zero entries. -/
theorem countKey_eq_zero (m : EventMap) (name : String)
    (h : name ∉ m.map Prod.fst) : countKey m name = 0 := by
  induction m with
  | nil => rfl
  | cons p rest ih =>
    obtain ⟨k, v⟩ := p
    simp only [List.map_cons, List.mem_cons] at h
    push_neg at h
    have hk : ((k, v).1 == name) = false := by
      simp only [beq_eq_false_iff_ne]
      exact fun hkk => h.1 hkk.symm
    simp only [countKey, List.filter_cons, hk, Bool.false_eq_true, if_false]
    exact ih h.2

/-- Registration keeps the key list unchanged when the name is already
present, and appends the name otherwise. -/
theorem keys_SetEventCallback (m : EventMap) (n : String) (cb : Nat) :
    (SetEventCallback m n cb).map Prod.fst =
      if n ∈ m.map Prod.fst then m.map Prod.fst
      else m.map Prod.fst ++ [n] := by
  induction m with
  | nil => simp [SetEventCallback]
  | cons p rest ih =>
    obtain ⟨k, v⟩ := p
    by_cases hk : k = n
    · subst hk
      simp [SetEventCallback]
    · have hnk : ¬n = k := fun h => hk h.symm
      simp only [SetEventCallback, if_neg hk, List.map_cons, ih, List.mem_cons]
      by_cases hn : n ∈ rest.map Prod.fst
      · simp [hn, hnk]
      · simp [hn, hnk]

/-- Registration preserves registry well-formedness. -/
theorem keysNodup_SetEventCallback {m : EventMap} (n : String) (cb : Nat)
    (h : keysNodup m) : keysNodup (SetEventCallback m n cb) := by
  unfold keysNodup at h ⊢
  rw [keys_SetEventCallback]
  by_cases hn : n ∈ m.map Prod.fst
  · simpa [hn] using h
  · simp [hn, List.nodup_append, h]

/-- Removal only drops keys. -/
theorem keys_RemoveEventCallback_sublist (m : EventMap) (name : String) :
    ((RemoveEventCallback m name).map Prod.fst).Sublist (m.map Prod.fst) := by
  induction m with
  | nil => simp [RemoveEventCallback]
  | cons p rest ih =>
    obtain ⟨k, v⟩ := p
    by_cases hk : k = name
    · simp only [RemoveEventCallback, if_pos hk, List.map_cons]
      exact List.sublist_cons_self _ _
    · simp only [RemoveEventCallback, if_neg hk, List.map_cons]
      exact List.Sublist.cons₂ _ ih

/-- Removal preserves registry well-formedness. -/
theorem keysNodup_RemoveEventCallback {m : EventMap} (name : String)
    (h : keysNodup m) : keysNodup (RemoveEventCallback m name) :=
  List.Nodup.sublist (keys_RemoveEventCallback_sublist m name) h

/-- After registering a handler, lookup of that name finds exactly it. -/
theorem findEventCallback_SetEventCallback_self (m : EventMap) (n : String)
    (cb : Nat) : findEventCallback (SetEventCallback m n cb) n = some cb := by
  induction m with
  | nil => simp [SetEventCallback, findEventCallback]
  | cons p rest ih =>
    obtain ⟨k, v⟩ := p
    by_cases hk : k = n
    · simp [SetEventCallback, if_pos hk, findEventCallback]
    · simp only [SetEventCallback, if_neg hk]
      simp only [findEventCallback, if_neg hk]
      exact ih

/-- On a well-formed registry, registration leaves exactly one entry for the
registered name. -/
theorem countKey_SetEventCallback_self (m : EventMap) (n : String) (cb : Nat)
    (h : keysNodup m) : countKey (SetEventCallback m n cb) n = 1 := by
  induction m with
  | nil => simp [SetEventCallback, countKey]
  | cons p rest ih =>
    obtain ⟨k, v⟩ := p
    have hrest := (List.nodup_cons.mp h).2
    by_cases hk : k = n
    · subst hk
      have hnotin := (List.nodup_cons.mp h).1
      simp only [SetEventCallback, if_pos rfl]
      simp only [countKey, List.filter_cons, beq_self_eq_true, if_pos rfl,
        List.length_cons]
      have : countKey rest k = 0 := countKey_eq_zero rest k hnotin
      simpa [countKey] using this
    · simp only [SetEventCallback, if_neg hk]
      have hkb : ((k, v).1 == n) = false := by
        simp only [beq_eq_false_iff_ne]
        exact hk
      simp only [countKey, List.filter_cons, hkb, Bool.false_eq_true, if_false]
      simpa [countKey] using ih hrest

/-- On a well-formed registry, removal really unregisters the name. -/
theorem findEventCallback_RemoveEventCallback_self (m : EventMap)
    (name : String) (h : keysNodup m) :
    findEventCallback (RemoveEventCallback m name) name = none := by
  induction m with
  | nil => rfl
  | cons p rest ih =>
    obtain ⟨k, v⟩ := p
    by_cases hk : k = name
    · subst hk
      simp only [RemoveEventCallback, if_pos rfl]
      exact findEventCallback_eq_none rest k (List.nodup_cons.mp h).1
    · simp only [RemoveEventCallback, if_neg hk]
      simp only [findEventCallback, if_neg hk]
      exact ih (List.nodup_cons.mp h).2

/-- Removing an absent name leaves the registry untouched. -/
theorem RemoveEventCallback_eq_of_find_none (m : EventMap) (name : String)
    (h : findEventCallback m name = none) : RemoveEventCallback m name = m := by
  induction m with
  | nil => rfl
  | cons p rest ih =>
    obtain ⟨k, v⟩ := p
    by_cases hk : k = name
    · simp [findEventCallback, if_pos hk] at h
    · simp only [findEventCallback, if_neg hk] at h
      simp [RemoveEventCallback, if_neg hk, ih h]

/-- Dispatch of a name with no registered handler does nothing, at any
nesting budget. -/
theorem trigger_noop_of_find_none (env : HandlerEnv) (fuel : Nat)
    (m : EventMap) (name : String) (params : JsValueList)
    (h : findEventCallback m name = none) :
    TriggerEvent env fuel m name params = (m, []) := by
  cases fuel with
  | zero => rfl
  | succ fuel => simp [TriggerEvent, triggerStep, h]

/-- Handler bodies preserve registry well-formedness, provided nested
dispatch does. -/
theorem runActions_preserves_keysNodup
    (trig : EventMap → String → JsValueList → EventMap × InvLog)
    (htrig : ∀ m n p, keysNodup m → keysNodup (trig m n p).1)
    (as : List HAction) (m : EventMap) (h : keysNodup m) :
    keysNodup (runActions trig as m).1 := by
  induction as generalizing m with
  | nil => exact h
  | cons a rest ih =>
    cases a with
    | setCb n cb => exact ih _ (keysNodup_SetEventCallback n cb h)
    | removeCb n => exact ih _ (keysNodup_RemoveEventCallback n h)
    | trigger n p => exact ih _ (htrig m n p h)

/-- Event dispatch, however deeply re-entrant, preserves registry
well-formedness. -/
theorem trigger_preserves_keysNodup (env : HandlerEnv) (fuel : Nat)
    (m : EventMap) (name : String) (params : JsValueList) (h : keysNodup m) :
    keysNodup (TriggerEvent env fuel m name params).1 := by
  induction fuel generalizing m name params with
  | zero => exact h
  | succ fuel ih =>
    show keysNodup (triggerStep env (TriggerEvent env fuel) m name params).1
    unfold triggerStep
    cases hf : findEventCallback m name with
    | none => exact h
    | some cb =>
      exact runActions_preserves_keysNodup (TriggerEvent env fuel)
        (fun m2 n p h2 => ih m2 n p h2) (env cb) m h

/-- Claim C2: registering handler A and then handler B for the same name
leaves exactly one handler registered for that name, namely B, and a
subsequent dispatch of that name invokes B exactly once and never invokes A
(last-writer-wins replacement, not a queue of handlers). -/
theorem setEventCallback_replaces (m : EventMap) (name : String) (A B : Nat)
    (params : JsValueList) (env : HandlerEnv) (fuel : Nat)
    (hAB : A ≠ B) (hB : env B = []) (h : keysNodup m) :
    countKey (SetEventCallback (SetEventCallback m name A) name B) name = 1 ∧
    findEventCallback (SetEventCallback (SetEventCallback m name A) name B)
      name = some B ∧
    TriggerEvent env (fuel + 1)
        (SetEventCallback (SetEventCallback m name A) name B) name params =
      (SetEventCallback (SetEventCallback m name A) name B, [(B, params)]) ∧
    (TriggerEvent env (fuel + 1)
        (SetEventCallback (SetEventCallback m name A) name B) name
        params).2.count (B, params) = 1 ∧
    ∀ q : JsValueList,
      (A, q) ∉ (TriggerEvent env (fuel + 1)
        (SetEventCallback (SetEventCallback m name A) name B) name
        params).2 := by
  have h1 : keysNodup (SetEventCallback m name A) :=
    keysNodup_SetEventCallback name A h
  have hc := countKey_SetEventCallback_self (SetEventCallback m name A) name B h1
  have hfind :=
    findEventCallback_SetEventCallback_self (SetEventCallback m name A) name B
  have htrig : TriggerEvent env (fuel + 1)
      (SetEventCallback (SetEventCallback m name A) name B) name params =
      (SetEventCallback (SetEventCallback m name A) name B, [(B, params)]) := by
    show triggerStep env (TriggerEvent env fuel) _ name params = _
    simp [triggerStep, hfind, hB, runActions]
  refine ⟨hc, hfind, htrig, ?_, ?_⟩
  · rw [htrig]
    simp
  · intro q
    rw [htrig]
    simp only [List.mem_singleton, Prod.mk.injEq, not_and]
    intro hq
    exact absurd hq hAB

/-- Witness for C2: on the empty registry, registering handler 0 then
handler 1 for event "x" and dispatching "x". -/
theorem setEventCallback_replaces_witness :
    (0 : Nat) ≠ 1 ∧
    keysNodup ([] : EventMap) ∧
    countKey (SetEventCallback (SetEventCallback [] ("x") 0) ("x") 1) ("x")
      = 1 ∧
    findEventCallback (SetEventCallback (SetEventCallback [] ("x") 0) ("x") 1)
      ("x") = some 1 ∧
    TriggerEvent (fun _ => []) 1
        (SetEventCallback (SetEventCallback [] ("x") 0) ("x") 1) ("x")
        [JsValue.num 3] =
      (SetEventCallback (SetEventCallback [] ("x") 0) ("x") 1,
        [(1, [JsValue.num 3])]) :=
  ⟨by decide, by decide,
   (setEventCallback_replaces [] ("x") 0 1 [JsValue.num 3] (fun _ => []) 0
     (by decide) (by rfl) (by decide)).1,
   (setEventCallback_replaces [] ("x") 0 1 [JsValue.num 3] (fun _ => []) 0
     (by decide) (by rfl) (by decide)).2.1,
   (setEventCallback_replaces [] ("x") 0 1 [JsValue.num 3] (fun _ => []) 0
     (by decide) (by rfl) (by decide)).2.2.1⟩

/-- Claim C6: dispatching an event name with no registered handler is a
silent no-op — it returns normally, invokes no handler, and leaves the event
registry (the only engine state dispatch touches) unchanged. -/
theorem triggerEvent_unregistered_noop (env : HandlerEnv) (fuel : Nat)
    (m : EventMap) (name : String) (params : JsValueList)
    (h : findEventCallback m name = none) :
    TriggerEvent env fuel m name params = (m, []) :=
  trigger_noop_of_find_none env fuel m name params h

/-- Witness for C6: dispatching "nonexistent" on a registry holding only an
"x" handler. -/
theorem triggerEvent_unregistered_noop_witness :
    findEventCallback [(("x" : String), 42)] ("nonexistent") = none ∧
    TriggerEvent (fun _ => []) 1 [(("x" : String), 42)] ("nonexistent")
        [JsValue.boolean true] =
      ([(("x" : String), 42)], []) :=
  ⟨by decide,
   triggerEvent_unregistered_noop (fun _ => []) 1 [(("x" : String), 42)]
     ("nonexistent") [JsValue.boolean true] (by decide)⟩

/-- Claim C7: removing an event's handler removes it if present and is a
no-op (not an error) if absent; either way a subsequent dispatch of that
name performs no invocation and does not fail. -/
theorem removeEventCallback_then_trigger (m : EventMap) (name : String)
    (params : JsValueList) (env : HandlerEnv) (fuel : Nat)
    (h : keysNodup m) :
    (findEventCallback m name = none → RemoveEventCallback m name = m) ∧
    findEventCallback (RemoveEventCallback m name) name = none ∧
    TriggerEvent env fuel (RemoveEventCallback m name) name params =
      (RemoveEventCallback m name, []) := by
  have hf := findEventCallback_RemoveEventCallback_self m name h
  exact ⟨RemoveEventCallback_eq_of_find_none m name, hf,
    trigger_noop_of_find_none env fuel _ name params hf⟩

/-- Witness for C7: removing "x" from a registry holding an "x" handler and
dispatching "x" afterwards. -/
theorem removeEventCallback_then_trigger_witness :
    keysNodup [(("x" : String), 5)] ∧
    findEventCallback (RemoveEventCallback [(("x" : String), 5)] ("x")) ("x")
      = none ∧
    TriggerEvent (fun _ => []) 1
        (RemoveEventCallback [(("x" : String), 5)] ("x")) ("x") [] =
      (RemoveEventCallback [(("x" : String), 5)] ("x"), []) :=
  ⟨by decide,
   (removeEventCallback_then_trigger [(("x" : String), 5)] ("x") []
     (fun _ => []) 1 (by decide)).2.1,
   (removeEventCallback_then_trigger [(("x" : String), 5)] ("x") []
     (fun _ => []) 1 (by decide)).2.2⟩

/-- Handler environment used to exercise re-entrant dispatch: handler 0
re-triggers event "b" from inside its body, every other handler does
nothing. -/
def reentrantEnv : HandlerEnv :=
  fun i => if i = 0 then [HAction.trigger ("b") []] else []

/-- Registry with handler 1 for "b" and handler 0 for "a", built with the
registration operation itself. -/
def reentrantMap : EventMap :=
  SetEventCallback (SetEventCallback [] ("b") 1) ("a") 0

/-- Claim C9: event dispatch is re-entrancy safe.  First, dispatch at any
nesting budget preserves registry well-formedness (single-handler replace
semantics keep holding), for every handler environment, including handlers
that re-enter `TriggerEvent`.  Second, a handler for "a" whose body triggers
"b" completes: dispatching "a" invokes it, then the "b" handler, and leaves
the registry exactly as it was, and a subsequent direct dispatch of "a"
still invokes the original handler registered for "a". -/
theorem triggerEvent_reentrancy_safe :
    (∀ (env : HandlerEnv) (fuel : Nat) (m : EventMap) (name : String)
        (params : JsValueList), keysNodup m →
        keysNodup (TriggerEvent env fuel m name params).1) ∧
    (∀ (na nb : String) (A B : Nat) (pa pb pa2 : JsValueList)
        (env : HandlerEnv) (fuel : Nat), na ≠ nb →
        env A = [HAction.trigger nb pb] → env B = [] →
        TriggerEvent env (fuel + 2)
            (SetEventCallback (SetEventCallback [] nb B) na A) na pa =
          (SetEventCallback (SetEventCallback [] nb B) na A,
            [(A, pa), (B, pb)]) ∧
        (TriggerEvent env (fuel + 1)
            (SetEventCallback (SetEventCallback [] nb B) na A) na
            pa2).2.head? = some (A, pa2)) := by
  constructor
  · exact fun env fuel m name params h =>
      trigger_preserves_keysNodup env fuel m name params h
  · intro na nb A B pa pb pa2 env fuel hn hA hB
    have hm0 : SetEventCallback (SetEventCallback [] nb B) na A =
        [(nb, B), (na, A)] := by
      simp [SetEventCallback, if_neg (fun h : nb = na => hn h.symm)]
    have hfa : findEventCallback [(nb, B), (na, A)] na = some A := by
      simp [findEventCallback, if_neg (fun h : nb = na => hn h.symm)]
    have hfb : findEventCallback [(nb, B), (na, A)] nb = some B := by
      simp [findEventCallback]
    rw [hm0]
    constructor
    · have hnb : TriggerEvent env (fuel + 1) [(nb, B), (na, A)] nb pb =
          ([(nb, B), (na, A)], [(B, pb)]) := by
        show triggerStep env (TriggerEvent env fuel) _ nb pb = _
        simp [triggerStep, hfb, hB, runActions]
      show triggerStep env (TriggerEvent env (fuel + 1)) _ na pa = _
      simp [triggerStep, hfa, hA, runActions, hnb]
    · show (triggerStep env (TriggerEvent env fuel) _ na pa2).2.head? = _
      simp [triggerStep, hfa, hA, runActions]

/-- Witness for C9: handler 0 for "a" re-triggers "b" (handled by handler
1); the registry `[("b", 1), ("a", 0)]` survives dispatch unchanged and a
second dispatch of "a" still reaches handler 0. -/
theorem triggerEvent_reentrancy_safe_witness :
    keysNodup reentrantMap ∧
    keysNodup (TriggerEvent reentrantEnv 1 reentrantMap ("a") []).1 ∧
    (("a" : String) ≠ ("b" : String)) ∧
    reentrantEnv 0 = [HAction.trigger ("b") []] ∧
    reentrantEnv 1 = [] ∧
    TriggerEvent reentrantEnv 2 reentrantMap ("a") [] =
      (reentrantMap, [(0, []), (1, [])]) ∧
    (TriggerEvent reentrantEnv 1 reentrantMap ("a")
        [JsValue.num 5]).2.head? = some (0, [JsValue.num 5]) :=
  ⟨by decide,
   triggerEvent_reentrancy_safe.1 reentrantEnv 1 reentrantMap ("a") []
     (by decide),
   by decide, by rfl, by rfl,
   (triggerEvent_reentrancy_safe.2 ("a") ("b") 0 1 [] [] [JsValue.num 5]
     reentrantEnv 0 (by decide) (by rfl) (by rfl)).1,
   (triggerEvent_reentrancy_safe.2 ("a") ("b") 0 1 [] [] [JsValue.num 5]
     reentrantEnv 0 (by decide) (by rfl) (by rfl)).2⟩

/-- Structured script error reported by `Evaluate`: a message plus an
optional source location, derivable from the runtime's native exception
representation. -/
structure ScriptError where
  message : String
  location : Option String
deriving DecidableEq

/-- Value of a decimal digit character, `none` for any other character. -/
def digitVal (c : Char) : Option Nat :=
  if c = '0' then some 0
  else if c = '1' then some 1
  else if c = '2' then some 2
  else if c = '3' then some 3
  else if c = '4' then some 4
  else if c = '5' then some 5
  else if c = '6' then some 6
  else if c = '7' then some 7
  else if c = '8' then some 8
  else if c = '9' then some 9
  else none

/-- Parses a run of decimal digits, failing on any non-digit. -/
def parseNatAux : List Char → Nat → Option Nat
  | [], acc => some acc
  | c :: rest, acc =>
    match digitVal c with
    | some d => parseNatAux rest (acc * 10 + d)
    | none => none

/-- Parses an optionally negated decimal integer literal. -/
def parseIntChars : List Char → Option Int
  | [] => none
  | '-' :: rest =>
    match rest with
    | [] => none
    | _ => (parseNatAux rest 0).map (fun n => -(n : Int))
  | cs => (parseNatAux cs 0).map (fun n => (n : Int))

/-- Splits a character list at every occurrence of the plus sign. -/
def splitPlus : List Char → List (List Char)
  | [] => [[]]
  | c :: rest =>
    let r := splitPlus rest
    if c = '+' then [] :: r
    else
      match r with
      | [] => [[c]]
      | g :: gs => (c :: g) :: gs

/-- Collects a list of optional values, failing if any is missing. -/
def allSome {α : Type} : List (Option α) → Option (List α)
  | [] => some []
  | none :: _ => none
  | some a :: rest => (allSome rest).map (fun l => a :: l)

/-- Modelled from the spec: the script runtime behind `JsEngine::Evaluate`
(body not under `src/`), restricted to the fragment the spec's testable
properties exercise — integer literals and `+` chains evaluate to their sum;
any other source fails to parse and raises a structured script error. -/
def evalScript (source : String) : Except ScriptError JsValue :=
  match allSome ((splitPlus source.toList).map parseIntChars) with
  | some ns =>
    Except.ok (JsValue.num (ns.foldl (fun x y => x + y) 0))
  | none =>
    Except.error ⟨"SyntaxError: invalid or unsupported script", none⟩

/-- Distinguished handle of the lazily built `DefaultFileSystem`. -/
def defaultFileSystemId : Nat := 100

/-- Distinguished handle of the lazily built `DefaultWebRequest`. -/
def defaultWebRequestId : Nat := 101

/-- Distinguished handle of the lazily built `DefaultLogSystem`. -/
def defaultLogSystemId : Nat := 102

/-- Host-visible state of a `JsEngine` (`JsEngine.h:214-222`): the event
registry and the three collaborator-port members, each `none` until set or
lazily defaulted.  The v8 isolate and context are opaque to the interface
and carry no host-visible state beyond what is modelled here. -/
structure JsEngineState where
  eventCallbacks : EventMap
  fileSystem : Option Nat
  webRequest : Option Nat
  logSystem : Option Nat
deriving DecidableEq

/-- Modelled from the spec: `JsEngine::New` constructs a fresh engine with
an empty event registry and no collaborator set. -/
def NewEngine : JsEngineState := ⟨[], none, none, none⟩

/-- Modelled from the spec: `JsEngine::Evaluate` (declared at
`JsEngine.h:108`, body not under `src/`) compiles and runs the source in the
engine's context and returns the last expression's value, or reports a
structured script error without corrupting the engine.  The modelled
fragment is side-effect free, so the state component passes through. -/
def Evaluate (engine : JsEngineState) (source : String) :
    JsEngineState × Except ScriptError JsValue :=
  (engine, evalScript source)

/-- Modelled from the spec: `JsEngine::GetFileSystem` (declared at
`JsEngine.h:177`, body not under `src/`) returns the current handle, lazily
installing the built-in default on first access if none was set. -/
def GetFileSystem (e : JsEngineState) : JsEngineState × Option Nat :=
  match e.fileSystem with
  | some h => (e, some h)
  | none =>
    ({ e with fileSystem := some defaultFileSystemId },
      some defaultFileSystemId)

/-- Modelled from the spec: `JsEngine::SetFileSystem` (`JsEngine.h:185`)
replaces the file-system collaborator handle. -/
def SetFileSystem (e : JsEngineState) (val : Nat) : JsEngineState :=
  { e with fileSystem := some val }

/-- Modelled from the spec: `JsEngine::GetWebRequest` (`JsEngine.h:190`),
lazily defaulting like the file-system port. -/
def GetWebRequest (e : JsEngineState) : JsEngineState × Option Nat :=
  match e.webRequest with
  | some h => (e, some h)
  | none =>
    ({ e with webRequest := some defaultWebRequestId },
      some defaultWebRequestId)

/-- Modelled from the spec: `JsEngine::SetWebRequest` (`JsEngine.h:198`)
replaces the web-request collaborator handle. -/
def SetWebRequest (e : JsEngineState) (val : Nat) : JsEngineState :=
  { e with webRequest := some val }

/-- Modelled from the spec: `JsEngine::GetLogSystem` (`JsEngine.h:203`),
lazily defaulting like the other ports. -/
def GetLogSystem (e : JsEngineState) : JsEngineState × Option Nat :=
  match e.logSystem with
  | some h => (e, some h)
  | none =>
    ({ e with logSystem := some defaultLogSystemId },
      some defaultLogSystemId)

/-- Modelled from the spec: `JsEngine::SetLogSystem` (`JsEngine.h:212`)
replaces the log-system collaborator handle. -/
def SetLogSystem (e : JsEngineState) (val : Nat) : JsEngineState :=
  { e with logSystem := some val }

/-- Modelled from the spec: a script-invokable function created by
`JsEngine::NewCallback` (`JsEngine.h:154`, body not under `src/`); the
owning engine is stashed in the execution context the callback runs in,
identified here by an engine id. -/
structure NativeCallback where
  ownerEngineId : Nat
deriving DecidableEq

/-- Modelled from the spec: a `v8::Arguments` object as seen by
`FromArguments`/`ConvertArguments` — either captured at a valid callback
invocation (carrying the owning engine and the positional raw arguments) or
produced outside any callback invocation context. -/
inductive V8Arguments where
  | fromCallback (ownerEngineId : Nat) (rawArgs : List JsValue)
  | outsideCallback
deriving DecidableEq

/-- Fatal programmer-misuse error: a contract violation, not a recoverable
runtime condition. -/
inductive FatalError where
  | programmerMisuse (msg : String)
deriving DecidableEq

/-- Modelled from the spec: `JsEngine::NewCallback` wraps a native function
for a given engine; the created function remembers its owning engine. -/
def NewCallback (engineId : Nat) : NativeCallback := ⟨engineId⟩

/-- Modelled from the spec: invoking a created callback from script captures
a `v8::Arguments` object carrying the owning engine and the call's raw
positional arguments. -/
def invokeFromScript (cb : NativeCallback) (rawArgs : List JsValue) :
    V8Arguments :=
  V8Arguments.fromCallback cb.ownerEngineId rawArgs

/-- Modelled from the spec: `JsEngine::FromArguments` (`JsEngine.h:164`,
body not under `src/`) recovers the engine associated with the execution
context that produced the arguments, and fails fatally when invoked outside
a valid callback invocation context. -/
def FromArguments : V8Arguments → Except FatalError Nat
  | V8Arguments.fromCallback eid _ => Except.ok eid
  | V8Arguments.outsideCallback =>
    Except.error (FatalError.programmerMisuse
      ("FromArguments called outside a callback invocation"))

/-- Modelled from the spec: `JsEngine::ConvertArguments` (`JsEngine.h:172`,
body not under `src/`) wraps each positional raw argument in a `JsValue`,
one per argument, in order, without coercing its runtime type. -/
def ConvertArguments : V8Arguments → JsValueList
  | V8Arguments.fromCallback _ args => args.map (fun v => v)
  | V8Arguments.outsideCallback => []

/-- Claim C3: when evaluation of a source string fails, `Evaluate` reports a
structured script error and leaves the engine uncorrupted — the state is
unchanged, every subsequent `Evaluate` on that engine behaves exactly as it
would on a fresh, correctly constructed engine, and in particular evaluating
"1+1" afterwards still succeeds and yields 2. -/
theorem evaluate_script_error_isolation (e : JsEngineState) (src : String)
    (err : ScriptError) (hfail : (Evaluate e src).2 = Except.error err) :
    (Evaluate e src).2 = Except.error ⟨err.message, err.location⟩ ∧
    (Evaluate e src).1 = e ∧
    (∀ src2, Evaluate (Evaluate e src).1 src2 = Evaluate e src2) ∧
    (∀ src2,
      (Evaluate (Evaluate e src).1 src2).2 = (Evaluate NewEngine src2).2) ∧
    (Evaluate (Evaluate e src).1 ("1+1")).2 = Except.ok (JsValue.num 2) := by
  refine ⟨by rw [hfail], rfl, fun src2 => rfl, fun src2 => rfl, ?_⟩
  show evalScript ("1+1") = Except.ok (JsValue.num 2)
  rfl

/-- Witness for C3: evaluating "invalid script..." on a fresh engine fails
with a script error, after which the engine still evaluates "1+1" to 2. -/
theorem evaluate_script_error_isolation_witness :
    (Evaluate NewEngine ("invalid script...")).2 =
      Except.error ⟨"SyntaxError: invalid or unsupported script", none⟩ ∧
    (Evaluate NewEngine ("invalid script...")).1 = NewEngine ∧
    (Evaluate (Evaluate NewEngine ("invalid script...")).1 ("1+1")).2 =
      Except.ok (JsValue.num 2) :=
  ⟨by rfl,
   (evaluate_script_error_isolation NewEngine ("invalid script...")
     ⟨"SyntaxError: invalid or unsupported script", none⟩ (by rfl)).2.1,
   (evaluate_script_error_isolation NewEngine ("invalid script...")
     ⟨"SyntaxError: invalid or unsupported script", none⟩ (by rfl)).2.2.2.2⟩

/-- Claim C4: for every callback created via `NewCallback` and invoked from
script, `FromArguments` applied to the invocation's arguments recovers
exactly the engine that created the callback; invoked outside a valid
callback invocation context it fails as a fatal programmer error, never
succeeding with any engine. -/
theorem fromArguments_recovers_engine :
    (∀ (engineId : Nat) (args : List JsValue),
      FromArguments (invokeFromScript (NewCallback engineId) args) =
        Except.ok engineId) ∧
    (∃ msg, FromArguments V8Arguments.outsideCallback =
      Except.error (FatalError.programmerMisuse msg)) ∧
    (∀ engineId : Nat,
      FromArguments V8Arguments.outsideCallback ≠ Except.ok engineId) := by
  refine ⟨fun engineId args => rfl, ⟨_, rfl⟩, fun engineId h => ?_⟩
  exact Except.noConfusion h

/-- Claim C5: `ConvertArguments` on the raw arguments of a callback
invocation yields one `JsValue` per positional argument, in order, with no
type coercion; a callback invoked with `[1, "a", true]` receives exactly 3
Values convertible back to 1, "a", true in that order, and `FromArguments`
there returns the creating engine. -/
theorem convertArguments_preserves_arguments :
    (∀ (engineId : Nat) (args : List JsValue),
      ConvertArguments (invokeFromScript (NewCallback engineId) args) =
        args) ∧
    (ConvertArguments (invokeFromScript (NewCallback 7)
        [JsValue.num 1, JsValue.str ("a"), JsValue.boolean true])).length
      = 3 ∧
    (ConvertArguments (invokeFromScript (NewCallback 7)
        [JsValue.num 1, JsValue.str ("a"), JsValue.boolean true])).map toHost
      = [some (HostValue.hint 1), some (HostValue.hstr ("a")),
          some (HostValue.hbool true)] ∧
    FromArguments (invokeFromScript (NewCallback 7)
        [JsValue.num 1, JsValue.str ("a"), JsValue.boolean true])
      = Except.ok 7 := by
  refine ⟨fun engineId args => ?_, rfl, rfl, rfl⟩
  simp [ConvertArguments, invokeFromScript, NewCallback]

/-- Claim C8: for each collaborator port (file system, web request, log
system), calling the getter with no prior setter call returns the non-null
built-in default implementation and installs it on the engine (lazy
instantiation), and after setting any handle the getter returns exactly
that handle. -/
theorem collaborator_ports_default_and_identity (e : JsEngineState)
    (hf : e.fileSystem = none) (hw : e.webRequest = none)
    (hl : e.logSystem = none) :
    ((GetFileSystem e).2 = some defaultFileSystemId ∧
      (GetFileSystem e).2 ≠ none ∧
      (GetFileSystem e).1.fileSystem = some defaultFileSystemId) ∧
    ((GetWebRequest e).2 = some defaultWebRequestId ∧
      (GetWebRequest e).2 ≠ none ∧
      (GetWebRequest e).1.webRequest = some defaultWebRequestId) ∧
    ((GetLogSystem e).2 = some defaultLogSystemId ∧
      (GetLogSystem e).2 ≠ none ∧
      (GetLogSystem e).1.logSystem = some defaultLogSystemId) ∧
    (∀ (e2 : JsEngineState) (h : Nat),
      (GetFileSystem (SetFileSystem e2 h)).2 = some h ∧
      (GetWebRequest (SetWebRequest e2 h)).2 = some h ∧
      (GetLogSystem (SetLogSystem e2 h)).2 = some h) := by
  refine ⟨?_, ?_, ?_, fun e2 h => ⟨rfl, rfl, rfl⟩⟩
  · simp [GetFileSystem, hf]
  · simp [GetWebRequest, hw]
  · simp [GetLogSystem, hl]

/-- Witness for C8: the three ports of a fresh engine default lazily, and a
custom handle 9 set on it is returned identically. -/
theorem collaborator_ports_witness :
    NewEngine.fileSystem = none ∧
    NewEngine.webRequest = none ∧
    NewEngine.logSystem = none ∧
    (GetLogSystem NewEngine).2 = some defaultLogSystemId ∧
    (GetLogSystem NewEngine).2 ≠ none ∧
    (GetFileSystem NewEngine).2 = some defaultFileSystemId ∧
    (GetWebRequest NewEngine).2 = some defaultWebRequestId ∧
    (GetLogSystem (SetLogSystem NewEngine 9)).2 = some 9 :=
  ⟨rfl, rfl, rfl,
   (collaborator_ports_default_and_identity NewEngine rfl rfl rfl).2.2.1.1,
   (collaborator_ports_default_and_identity NewEngine rfl rfl rfl).2.2.1.2.1,
   (collaborator_ports_default_and_identity NewEngine rfl rfl rfl).1.1,
   (collaborator_ports_default_and_identity NewEngine rfl rfl rfl).2.1.1,
   ((collaborator_ports_default_and_identity NewEngine rfl rfl rfl).2.2.2
     NewEngine 9).2.2⟩

end AdblockPlus
